import Mathlib

/-!
Shallow embedding of the `ollama-terminal` client (Go, two variants of
`main`): the generate-based variant in `main.go` and the history-keeping
chat variant in `unnamed/part_000`.  The loop bodies, the system-message
loading, the streaming callbacks and the context (cancellation-scope)
plumbing are transcribed as pure Lean functions; one loop iteration is a
function from the input line and the outcome of the (at most one)
completion call to the observable effects of that iteration.
-/

namespace OllamaTerminal

/-- Go `unicode.IsSpace` (the predicate used by `strings.TrimSpace`):
ASCII whitespace plus the Unicode White_Space code points. -/
def goIsSpace (c : Char) : Bool :=
  c = ' ' || c = '\t' || c = '\n' || c.toNat = 11 || c.toNat = 12 || c = '\r' ||
  c.toNat = 0x85 || c.toNat = 0xA0 || c.toNat = 0x1680 ||
  (0x2000 ≤ c.toNat && c.toNat ≤ 0x200A) ||
  c.toNat = 0x2028 || c.toNat = 0x2029 || c.toNat = 0x202F ||
  c.toNat = 0x205F || c.toNat = 0x3000

/-- Go `strings.TrimSpace`: drop leading and trailing whitespace. -/
def trimSpace (s : String) : String :=
  String.mk (((s.data.dropWhile goIsSpace).reverse.dropWhile goIsSpace).reverse)

/-- Go `strings.ToLower`.  Go applies the full Unicode simple case
mapping; this embedding restricts it to the ASCII mapping, which agrees
with Go on every ASCII string, and the only token the program compares
against (`"exit"`) is ASCII. -/
def toLowerAscii (s : String) : String :=
  String.mk (s.data.map Char.toLower)

/-- Go `api.Message` (the fields this program reads or writes). -/
structure Message where
  role : String
  content : String
  thinking : String := ""
deriving DecidableEq, Repr

/-- Go `api.ChatResponse` (the fields the chat callback reads). -/
structure ChatResponse where
  message : Message
  doneReason : String := ""
deriving DecidableEq, Repr

/-- The observable outcome of one `client.Chat` call: the fragments the
collaborator delivered to the callback, in arrival order, and whether the
call returned an error. -/
structure ChatOutcome where
  fragments : List ChatResponse
  failed : Bool
deriving DecidableEq, Repr

/-- `fullResponse.WriteString(c)` guarded by `c != ""`
(`main.go` line 181-184, `part_000` line 160-163). -/
def writeNonEmpty (acc piece : String) : String :=
  if ¬ piece = "" then acc ++ piece else acc

/-- The accumulated `fullResponse` after the callback has seen the given
text pieces in order. -/
def fullResponseOf (pieces : List String) : String :=
  pieces.foldl writeNonEmpty ""

/-- Written from the spec's words, for comparison with `fullResponseOf`:
the concatenation of a list of fragments' texts in arrival order. -/
def concatInOrder : List String → String
  | [] => ""
  | s :: rest => s ++ concatInOrder rest

/-- The observable effects of one iteration of a loop body on top of the
conversation history:  the history afterwards, whether a completion call
was issued, whether the loop `break`s, whether the generation-failed
error report was printed, and how many per-call cancellation scopes
created by this iteration are still held when the iteration ends. -/
structure StepOut where
  messages : List Message
  called : Bool
  exited : Bool
  errorPrinted : Bool
  scopesLeaked : Nat
deriving DecidableEq, Repr

/-- One iteration of the chat loop of `unnamed/part_000` (lines 113-181):
trim the input; skip blank input; `break` on the exit tokens; otherwise
append the user turn, run `client.Chat` (callback accumulates the
non-empty `Message.Content` fields), append the assistant turn whether or
not the call failed, print the error report exactly when it failed, and
`cancel()` the 30-second scope at the end of the iteration. -/
def chatLoopStep (messages : List Message) (input : String) (oc : ChatOutcome) : StepOut :=
  let text := trimSpace input
  if text = "" then
    { messages := messages, called := false, exited := false
      errorPrinted := false, scopesLeaked := 0 }
  else if toLowerAscii text = "exit" ∨ text = "quit" then
    { messages := messages, called := false, exited := true
      errorPrinted := false, scopesLeaked := 0 }
  else
    let afterUser := messages ++ [{ role := "user", content := text }]
    let full := fullResponseOf (oc.fragments.map fun r => r.message.content)
    let afterAssistant := afterUser ++ [{ role := "assistant", content := full }]
    { messages := afterAssistant, called := true, exited := false
      errorPrinted := oc.failed, scopesLeaked := 0 }

/-- `part_000` lines 107-111: the history seeded with the system turn. -/
def seedHistory (systemMsg : String) : List Message :=
  [{ role := "system", content := systemMsg }]

/-- `loadSystemMessage` (`main.go` lines 25-31): the file's readable
contents, or an error; on success the contents are `TrimSpace`d.  The
file system is modelled as `Option String` (the contents when the file is
present and readable). -/
def loadSystemMessage (file : Option String) : Except Unit String :=
  match file with
  | none => .error ()
  | some data => .ok (trimSpace data)

/-- `main.go` lines 47-51: the system message actually used — the loaded
one, or the fixed fallback when loading failed (a warning is logged and
the program continues). -/
def resolveSystemMsg (file : Option String) : String :=
  match loadSystemMessage file with
  | .error _ => "You are a helpful assistant."
  | .ok s => s

/-- Go `api.GenerateResponse` (the fields the generate callback reads). -/
structure GenerateResponse where
  response : String
  thinking : String := ""
deriving DecidableEq, Repr

/-- The observable outcome of one `client.Generate` call, as for chat. -/
structure GenerateOutcome where
  fragments : List GenerateResponse
  failed : Bool
deriving DecidableEq, Repr

/-- The terminal writes the generate callback performs (`main.go`
lines 158-187): the in-place thinking display, the finalization message,
and a streamed answer fragment. -/
inductive Event where
  | showThinking (text : String)
  | finalizeThinking
  | printResponse (text : String)
deriving DecidableEq, Repr

/-- `main.go` lines 164-168: thinking text longer than `maxLen = 100` is
cut to the first 100 characters plus an ellipsis before being displayed.
(Go measures and slices UTF-8 bytes; this embedding measures and slices
characters, which agrees with Go on ASCII text.) -/
def truncateThinking (s : String) : String :=
  if s.length > 100 then s.take 100 ++ "..." else s

/-- State and writes after the generate callback ran over some fragments:
the `thinkingDone` flag, the accumulated `fullResponse`, and the terminal
writes in order. -/
structure GenRunOut where
  thinkingDone : Bool
  fullResponse : String
  events : List Event
deriving DecidableEq, Repr

/-- One invocation of the generate callback (`main.go` lines 158-187) on
fragment `g`, entered with flag `done` and accumulator `acc`:  display
(truncated) thinking while not done; on the first non-empty response set
the flag and print the finalization message; print and accumulate every
non-empty response. -/
def genStepCore (done : Bool) (acc : String) (g : GenerateResponse) : GenRunOut :=
  let showEvents :=
    if ¬ g.thinking = "" ∧ done = false then
      [Event.showThinking (truncateThinking g.thinking)] else []
  let finalize : Prop := ¬ g.response = "" ∧ done = false
  let done2 := if finalize then true else done
  let finEvents := if finalize then [Event.finalizeThinking] else []
  let acc2 := if ¬ g.response = "" then acc ++ g.response else acc
  let respEvents := if ¬ g.response = "" then [Event.printResponse g.response] else []
  { thinkingDone := done2, fullResponse := acc2
    events := showEvents ++ finEvents ++ respEvents }

/-- The generate callback run over a whole fragment list, in arrival
order. -/
def genRun : List GenerateResponse → Bool → String → GenRunOut
  | [], done, acc => { thinkingDone := done, fullResponse := acc, events := [] }
  | g :: rest, done, acc =>
    let s := genStepCore done acc g
    let r := genRun rest s.thinkingDone s.fullResponse
    { thinkingDone := r.thinkingDone, fullResponse := r.fullResponse
      events := s.events ++ r.events }

/-- The observable effects of one iteration of the generate-variant loop
(`main.go` lines 127-196).  This variant keeps no history. -/
structure GenStepOut where
  called : Bool
  exited : Bool
  errorPrinted : Bool
  trailingNewline : Bool
  fullResponse : String
  events : List Event
  scopesLeaked : Nat
deriving DecidableEq, Repr

/-- One iteration of the generate-variant loop (`main.go` lines 127-196):
trim; skip blank input; `break` on the exit tokens; otherwise create the
30-second scope with `defer cancel()` — the deferred `cancel` runs only
when `main` returns, so the scope created by this iteration is still held
when the iteration ends (`scopesLeaked = 1`) — run `client.Generate`, and
on error print the report and `continue` (skipping the trailing
newline). -/
def generateLoopStep (input : String) (oc : GenerateOutcome) : GenStepOut :=
  let text := trimSpace input
  if text = "" then
    { called := false, exited := false, errorPrinted := false
      trailingNewline := false, fullResponse := "", events := [], scopesLeaked := 0 }
  else if toLowerAscii text = "exit" ∨ text = "quit" then
    { called := false, exited := true, errorPrinted := false
      trailingNewline := false, fullResponse := "", events := [], scopesLeaked := 0 }
  else
    let r := genRun oc.fragments false ""
    if oc.failed then
      { called := true, exited := false, errorPrinted := true
        trailingNewline := false, fullResponse := r.fullResponse
        events := r.events, scopesLeaked := 1 }
    else
      { called := true, exited := false, errorPrinted := false
        trailingNewline := true, fullResponse := r.fullResponse
        events := r.events, scopesLeaked := 1 }

/-- The kind of context (cancellation scope) a collaborator call is
issued under. -/
inductive CtxKind where
  | timeout5
  | background
  | timeout30
deriving DecidableEq, Repr

/-- The setup collaborator calls of `main.go` in program order, each with
the context it is passed: `ctx` (the 5-second scope of line 42) for
`Heartbeat` (line 54), `Version` (line 59), `List` (line 65), `Embed`
(line 106) and `Show` (line 114); `context.Background()` for `Pull`
(line 96). -/
def mainCallPlan : List (String × CtxKind) :=
  [("Heartbeat", CtxKind.timeout5), ("Version", CtxKind.timeout5),
   ("List", CtxKind.timeout5), ("Pull", CtxKind.background),
   ("Embed", CtxKind.timeout5), ("Show", CtxKind.timeout5)]

/-- The context each in-loop completion call is issued under: the fresh
30-second `longerCtx` (`main.go` line 145, `part_000` line 135). -/
def completionCtxKind : CtxKind := CtxKind.timeout30

/-! ### Helper lemmas -/

theorem foldl_writeNonEmpty (l : List String) (acc : String) :
    l.foldl writeNonEmpty acc = acc ++ concatInOrder (l.filter fun s => !(s == "")) := by
  induction l generalizing acc with
  | nil => simp [concatInOrder, String.append_empty]
  | cons s rest ih =>
    by_cases hs : s = ""
    · subst hs
      simp [writeNonEmpty, ih]
    · simp [writeNonEmpty, hs, ih, concatInOrder, String.append_assoc]

theorem concatInOrder_filter_nonempty (l : List String) :
    concatInOrder (l.filter fun s => !(s == "")) = concatInOrder l := by
  induction l with
  | nil => rfl
  | cons s rest ih =>
    by_cases hs : s = ""
    · subst hs
      simp [concatInOrder, ih, String.empty_append]
    · simp [concatInOrder, hs, ih]

theorem fullResponseOf_eq_filter (l : List String) :
    fullResponseOf l = concatInOrder (l.filter fun s => !(s == "")) := by
  rw [fullResponseOf, foldl_writeNonEmpty, String.empty_append]

theorem chatLoopStep_break (msgs : List Message) (input : String) (oc : ChatOutcome)
    (hne : ¬ trimSpace input = "")
    (hex : toLowerAscii (trimSpace input) = "exit" ∨ trimSpace input = "quit") :
    chatLoopStep msgs input oc
      = { messages := msgs, called := false, exited := true
          errorPrinted := false, scopesLeaked := 0 } := by
  simp only [chatLoopStep]
  rw [if_neg hne, if_pos hex]

theorem chatLoopStep_normal (msgs : List Message) (input : String) (oc : ChatOutcome)
    (hne : ¬ trimSpace input = "")
    (hex : ¬ (toLowerAscii (trimSpace input) = "exit" ∨ trimSpace input = "quit")) :
    chatLoopStep msgs input oc
      = { messages := msgs ++ [{ role := "user", content := trimSpace input },
            { role := "assistant",
              content := fullResponseOf (oc.fragments.map fun r => r.message.content) }],
          called := true, exited := false, errorPrinted := oc.failed, scopesLeaked := 0 } := by
  simp only [chatLoopStep]
  rw [if_neg hne, if_neg hex]
  simp [List.append_assoc]

theorem generateLoopStep_break (input : String) (oc : GenerateOutcome)
    (hne : ¬ trimSpace input = "")
    (hex : toLowerAscii (trimSpace input) = "exit" ∨ trimSpace input = "quit") :
    generateLoopStep input oc
      = { called := false, exited := true, errorPrinted := false
          trailingNewline := false, fullResponse := "", events := [], scopesLeaked := 0 } := by
  simp only [generateLoopStep]
  rw [if_neg hne, if_pos hex]

theorem trimCore (p : Char → Bool) (l : List Char) :
    l = l.takeWhile p
        ++ ((l.dropWhile p).reverse.dropWhile p).reverse
        ++ ((l.dropWhile p).reverse.takeWhile p).reverse := by
  conv_lhs => rw [← List.takeWhile_append_dropWhile p l]
  rw [List.append_assoc]
  congr 1
  conv_lhs => rw [← List.reverse_reverse (l.dropWhile p),
                  ← List.takeWhile_append_dropWhile p (l.dropWhile p).reverse]
  rw [List.reverse_append]

theorem trimSpace_decompose (s : String) :
    ∃ pre suf : List Char,
      s.data = pre ++ (trimSpace s).data ++ suf ∧
      (∀ c ∈ pre, goIsSpace c) ∧ ∀ c ∈ suf, goIsSpace c := by
  refine ⟨s.data.takeWhile goIsSpace,
          ((s.data.dropWhile goIsSpace).reverse.takeWhile goIsSpace).reverse,
          trimCore goIsSpace s.data, ?_, ?_⟩
  · exact fun c hc => List.mem_takeWhile_imp hc
  · exact fun c hc => List.mem_takeWhile_imp (List.mem_reverse.mp hc)

theorem genStepCore_done_of_response (d : Bool) (a : String) (g : GenerateResponse)
    (hg : ¬ g.response = "") : (genStepCore d a g).thinkingDone = true := by
  cases d <;> simp [genStepCore, hg]

theorem genStepCore_showThinking (d : Bool) (a : String) (g : GenerateResponse) (t : String)
    (h : Event.showThinking t ∈ (genStepCore d a g).events) :
    ¬ g.thinking = "" ∧ t = truncateThinking g.thinking := by
  by_cases ht : g.thinking = "" <;> by_cases hr : g.response = "" <;> cases d <;>
    simp [genStepCore, ht, hr] at h <;> exact ⟨ht, h⟩

theorem genRun_append (l1 l2 : List GenerateResponse) (d : Bool) (a : String) :
    genRun (l1 ++ l2) d a
      = { thinkingDone := (genRun l2 (genRun l1 d a).thinkingDone
            (genRun l1 d a).fullResponse).thinkingDone,
          fullResponse := (genRun l2 (genRun l1 d a).thinkingDone
            (genRun l1 d a).fullResponse).fullResponse,
          events := (genRun l1 d a).events
            ++ (genRun l2 (genRun l1 d a).thinkingDone
                  (genRun l1 d a).fullResponse).events } := by
  induction l1 generalizing d a with
  | nil => simp only [List.nil_append, genRun, List.nil_append]
  | cons g0 rest ih => simp [genRun, ih, List.append_assoc]

theorem genRun_done_events (frags : List GenerateResponse) (acc : String) :
    (genRun frags true acc).thinkingDone = true ∧
    ∀ t, Event.showThinking t ∉ (genRun frags true acc).events := by
  induction frags generalizing acc with
  | nil => simp [genRun]
  | cons g rest ih =>
    have hflag : (genStepCore true acc g).thinkingDone = true := by
      by_cases hr : g.response = "" <;> simp [genStepCore, hr]
    have hev : ∀ t, Event.showThinking t ∉ (genStepCore true acc g).events := by
      intro t
      by_cases hr : g.response = "" <;> by_cases ht : g.thinking = "" <;>
        simp [genStepCore, hr, ht]
    simp only [genRun]
    rw [hflag]
    refine ⟨(ih _).1, ?_⟩
    intro t hmem
    rcases List.mem_append.mp hmem with h | h
    · exact hev t h
    · exact (ih _).2 t h

theorem genRun_showThinking_truncated (frags : List GenerateResponse) :
    ∀ (d : Bool) (a t : String),
      Event.showThinking t ∈ (genRun frags d a).events →
      ∃ g, g ∈ frags ∧ ¬ g.thinking = "" ∧ t = truncateThinking g.thinking := by
  induction frags with
  | nil => intro d a t h; simp [genRun] at h
  | cons g rest ih =>
    intro d a t h
    simp only [genRun] at h
    rcases List.mem_append.mp h with h | h
    · have hg := genStepCore_showThinking d a g t h
      exact ⟨g, List.mem_cons_self g rest, hg.1, hg.2⟩
    · obtain ⟨g2, hmem, h1, h2⟩ := ih _ _ t h
      exact ⟨g2, List.mem_cons_of_mem g hmem, h1, h2⟩

/-! ### Claim theorems -/

/-- C1: in the history-keeping variant, every processed input line that is
non-empty after trimming and is not an exit token appends exactly one user
turn (content: the trimmed input) and exactly one assistant turn to the
history, and the assistant turn is appended whether the completion call
succeeds or fails (`oc`, including `oc.failed`, is arbitrary; the
assistant text is the accumulated stream, possibly empty). -/
theorem c1_history_growth (msgs : List Message) (input : String) (oc : ChatOutcome)
    (h1 : ¬ trimSpace input = "")
    (h2 : ¬ (toLowerAscii (trimSpace input) = "exit" ∨ trimSpace input = "quit")) :
    chatLoopStep msgs input oc
      = { messages := msgs ++ [{ role := "user", content := trimSpace input },
            { role := "assistant",
              content := fullResponseOf (oc.fragments.map fun r => r.message.content) }],
          called := true, exited := false, errorPrinted := oc.failed, scopesLeaked := 0 } :=
  chatLoopStep_normal msgs input oc h1 h2

/-- Witness for C1 at input `"hello"` with a failed call delivering no
fragments: one user turn and one (empty) assistant turn are appended. -/
theorem c1_history_growth_witness :
    ¬ trimSpace "hello" = "" ∧
    ¬ (toLowerAscii (trimSpace "hello") = "exit" ∨ trimSpace "hello" = "quit") ∧
    chatLoopStep [] "hello" { fragments := [], failed := true }
      = { messages := [{ role := "user", content := "hello" },
            { role := "assistant", content := "" }],
          called := true, exited := false, errorPrinted := true, scopesLeaked := 0 } :=
  ⟨by decide, by decide,
    (c1_history_growth [] "hello" { fragments := [], failed := true }
      (by decide) (by decide)).trans (by decide)⟩

/-- C2: the accumulated assistant text equals the concatenation, in
arrival order, of the non-empty content fields of the delivered fragments
(equivalently, of all content fields), with nothing dropped, duplicated
or reordered; in particular the two-fragment stream `"Hi"`, `" there"`
on input `"hello"` yields the assistant turn `"Hi there"` right after
the user turn `"hello"`. -/
theorem c2_stream_accumulation (frags : List ChatResponse) :
    fullResponseOf (frags.map fun r => r.message.content)
      = concatInOrder ((frags.map fun r => r.message.content).filter fun s => !(s == "")) ∧
    fullResponseOf (frags.map fun r => r.message.content)
      = concatInOrder (frags.map fun r => r.message.content) ∧
    (chatLoopStep (seedHistory (resolveSystemMsg none)) "hello"
        { fragments := [{ message := { role := "assistant", content := "Hi" } },
                        { message := { role := "assistant", content := " there" } }],
          failed := false }).messages
      = [{ role := "system", content := "You are a helpful assistant." },
         { role := "user", content := "hello" },
         { role := "assistant", content := "Hi there" }] :=
  ⟨fullResponseOf_eq_filter _,
   (fullResponseOf_eq_filter _).trans (concatInOrder_filter_nonempty _),
   by decide⟩

/-- C3: an input whose trimmed form matches the exit token
case-insensitively makes both variants `break` out of the loop with the
history unchanged and no completion call issued. -/
theorem c3_exit_token (msgs : List Message) (input : String) (oc : ChatOutcome)
    (goc : GenerateOutcome) (h : toLowerAscii (trimSpace input) = "exit") :
    chatLoopStep msgs input oc
      = { messages := msgs, called := false, exited := true
          errorPrinted := false, scopesLeaked := 0 } ∧
    generateLoopStep input goc
      = { called := false, exited := true, errorPrinted := false
          trailingNewline := false, fullResponse := "", events := [], scopesLeaked := 0 } := by
  have hne : ¬ trimSpace input = "" := by
    intro he
    rw [he] at h
    exact absurd h (by decide)
  exact ⟨chatLoopStep_break msgs input oc hne (Or.inl h),
         generateLoopStep_break input goc hne (Or.inl h)⟩

/-- Witness for C3 at input `" EXIT "`. -/
theorem c3_exit_token_witness :
    toLowerAscii (trimSpace " EXIT ") = "exit" ∧
    chatLoopStep [] " EXIT " { fragments := [], failed := false }
      = { messages := [], called := false, exited := true
          errorPrinted := false, scopesLeaked := 0 } ∧
    generateLoopStep " EXIT " { fragments := [], failed := false }
      = { called := false, exited := true, errorPrinted := false
          trailingNewline := false, fullResponse := "", events := [], scopesLeaked := 0 } :=
  ⟨by decide,
   (c3_exit_token [] " EXIT " { fragments := [], failed := false }
      { fragments := [], failed := false } (by decide)).1,
   (c3_exit_token [] " EXIT " { fragments := [], failed := false }
      { fragments := [], failed := false } (by decide)).2⟩

/-- C4: an input that is empty or whitespace-only after trimming is
skipped: no completion call in either variant, the history exactly
unchanged, the loop neither exits nor reports an error. -/
theorem c4_blank_input (msgs : List Message) (input : String) (oc : ChatOutcome)
    (goc : GenerateOutcome) (h : trimSpace input = "") :
    chatLoopStep msgs input oc
      = { messages := msgs, called := false, exited := false
          errorPrinted := false, scopesLeaked := 0 } ∧
    generateLoopStep input goc
      = { called := false, exited := false, errorPrinted := false
          trailingNewline := false, fullResponse := "", events := [], scopesLeaked := 0 } := by
  constructor
  · simp only [chatLoopStep]
    rw [if_pos h]
  · simp only [generateLoopStep]
    rw [if_pos h]

/-- Witness for C4 at the whitespace-only input `"  \t "`. -/
theorem c4_blank_input_witness :
    trimSpace "  \t " = "" ∧
    chatLoopStep [{ role := "system", content := "s" }] "  \t "
        { fragments := [], failed := false }
      = { messages := [{ role := "system", content := "s" }], called := false
          exited := false, errorPrinted := false, scopesLeaked := 0 } :=
  ⟨by decide,
   (c4_blank_input [{ role := "system", content := "s" }] "  \t "
      { fragments := [], failed := false } { fragments := [], failed := false }
      (by decide)).1⟩

/-- C5: when the streaming call fails, the failure report is printed, the
history is left exactly as already appended (the user turn and the — then
possibly empty — assistant turn stay, no rollback), and the loop neither
exits nor stops: the iteration ends normally.  (The report goes to the
terminal via the same `fmt` printing the rest of the dialogue.) -/
theorem c5_failure_no_rollback (msgs : List Message) (input : String) (oc : ChatOutcome)
    (h1 : ¬ trimSpace input = "")
    (h2 : ¬ (toLowerAscii (trimSpace input) = "exit" ∨ trimSpace input = "quit"))
    (hf : oc.failed = true) :
    (chatLoopStep msgs input oc).errorPrinted = true ∧
    (chatLoopStep msgs input oc).messages
      = msgs ++ [{ role := "user", content := trimSpace input },
          { role := "assistant",
            content := fullResponseOf (oc.fragments.map fun r => r.message.content) }] ∧
    (chatLoopStep msgs input oc).exited = false := by
  rw [chatLoopStep_normal msgs input oc h1 h2]
  exact ⟨hf, rfl, rfl⟩

/-- Witness for C5 at input `"hi"` with a failed call that streamed
`"par"` before failing. -/
theorem c5_failure_no_rollback_witness :
    ¬ trimSpace "hi" = "" ∧
    ¬ (toLowerAscii (trimSpace "hi") = "exit" ∨ trimSpace "hi" = "quit") ∧
    ({ fragments := [{ message := { role := "assistant", content := "par" } }],
       failed := true } : ChatOutcome).failed = true ∧
    (chatLoopStep [] "hi"
      { fragments := [{ message := { role := "assistant", content := "par" } }],
        failed := true }).errorPrinted = true ∧
    (chatLoopStep [] "hi"
      { fragments := [{ message := { role := "assistant", content := "par" } }],
        failed := true }).exited = false :=
  ⟨by decide, by decide, by decide,
   (c5_failure_no_rollback [] "hi"
      { fragments := [{ message := { role := "assistant", content := "par" } }],
        failed := true } (by decide) (by decide) (by decide)).1,
   (c5_failure_no_rollback [] "hi"
      { fragments := [{ message := { role := "assistant", content := "par" } }],
        failed := true } (by decide) (by decide) (by decide)).2.2⟩

/-- C6: with `system.txt` absent or unreadable the resolved system
message is the fixed fallback (and resolution is total — the program
continues); with the file readable it is exactly the file's contents
trimmed of whitespace at both ends only: the original contents are the
trimmed contents surrounded by whitespace. -/
theorem c6_system_message :
    resolveSystemMsg none = "You are a helpful assistant." ∧
    (∀ data, resolveSystemMsg (some data) = trimSpace data) ∧
    ∀ data : String, ∃ pre suf : List Char,
      data.data = pre ++ (trimSpace data).data ++ suf ∧
      (∀ c ∈ pre, goIsSpace c) ∧ ∀ c ∈ suf, goIsSpace c :=
  ⟨rfl, fun _ => rfl, fun data => trimSpace_decompose data⟩

/-- C7 counterexample: the claim says the version query is not bounded by
the 5-time-unit scope, but `main.go` line 59 passes the very `ctx` of
line 42 (the 5-second scope) to `client.Version`, so the claim as stated
is false at the `Version` call. -/
theorem c7_counterexample :
    List.lookup "Version" mainCallPlan = some CtxKind.timeout5 := by decide

/-- C7 amended: the 5-time-unit scope bounds the connectivity check and
likewise the version query, the model listing, the embedding and the show
call — every setup call except the pull, which runs under an unbounded
background context — while each in-loop completion call is bounded by its
own fresh 30-time-unit scope. -/
theorem c7_setup_contexts :
    List.lookup "Heartbeat" mainCallPlan = some CtxKind.timeout5 ∧
    List.lookup "Version" mainCallPlan = some CtxKind.timeout5 ∧
    List.lookup "List" mainCallPlan = some CtxKind.timeout5 ∧
    List.lookup "Embed" mainCallPlan = some CtxKind.timeout5 ∧
    List.lookup "Show" mainCallPlan = some CtxKind.timeout5 ∧
    List.lookup "Pull" mainCallPlan = some CtxKind.background ∧
    completionCtxKind = CtxKind.timeout30 := by decide

/-- C8: the generate variant (`main.go` line 146) defers `cancel()` to
function exit, so after a processed input (here `"hello"`) the per-call
30-second scope is still held when the iteration ends and the next line
is read; the chat variant (`part_000` line 180) calls `cancel()` at the
end of every iteration, so it never leaves a scope held. -/
theorem c8_deferred_cancel_leak :
    (generateLoopStep "hello" { fragments := [], failed := false }).scopesLeaked = 1 ∧
    ∀ (msgs : List Message) (input : String) (oc : ChatOutcome),
      (chatLoopStep msgs input oc).scopesLeaked = 0 := by
  refine ⟨by decide, ?_⟩
  intro msgs input oc
  simp only [chatLoopStep]
  split_ifs <;> rfl

/-- C9: in the generate callback, once the first fragment with non-empty
answer text has been processed the `thinkingDone` flag is set, and from
then on no reasoning text is rendered again — even for later fragments
with non-empty `thinking` — while every reasoning text that was rendered
is the truncation (first 100 characters plus ellipsis when longer) of the
fragment's reasoning field. -/
theorem c9_reasoning_finalized (pre suf : List GenerateResponse) (g : GenerateResponse)
    (hg : ¬ g.response = "") (t : String) :
    (genRun (pre ++ [g]) false "").thinkingDone = true ∧
    Event.showThinking t ∉
      (genRun suf (genRun (pre ++ [g]) false "").thinkingDone
        (genRun (pre ++ [g]) false "").fullResponse).events ∧
    (Event.showThinking t ∈ (genRun (pre ++ [g]) false "").events →
      ∃ g2, g2 ∈ pre ++ [g] ∧ ¬ g2.thinking = "" ∧ t = truncateThinking g2.thinking) := by
  have hflag : (genRun (pre ++ [g]) false "").thinkingDone = true := by
    rw [genRun_append pre [g] false ""]
    simp only [genRun]
    exact genStepCore_done_of_response _ _ g hg
  refine ⟨hflag, ?_, ?_⟩
  · rw [hflag]
    exact (genRun_done_events suf _).2 t
  · exact fun h => genRun_showThinking_truncated (pre ++ [g]) false "" t h

/-- Witness for C9: after the answer fragment `"Hi"`, a later fragment
carrying only reasoning text `"zzz"` renders no reasoning display. -/
theorem c9_reasoning_finalized_witness :
    ¬ ({ response := "Hi" } : GenerateResponse).response = "" ∧
    (genRun ([] ++ [{ response := "Hi" }]) false "").thinkingDone = true ∧
    Event.showThinking "zzz" ∉
      (genRun [{ response := "", thinking := "zzz" }]
        (genRun ([] ++ [{ response := "Hi" }]) false "").thinkingDone
        (genRun ([] ++ [{ response := "Hi" }]) false "").fullResponse).events :=
  ⟨by decide,
   (c9_reasoning_finalized [] [{ response := "", thinking := "zzz" }]
      { response := "Hi" } (by decide) "zzz").1,
   (c9_reasoning_finalized [] [{ response := "", thinking := "zzz" }]
      { response := "Hi" } (by decide) "zzz").2.1⟩

/-- C10: the trimmed input `"quit"` also breaks the loop, but this second
token is matched case-sensitively: `"QUIT"` does not break (its
lowercasing is not `"exit"` and it is not literally `"quit"`) and is
processed as a new user turn instead. -/
theorem c10_quit_case_sensitive (msgs : List Message) (oc oc2 : ChatOutcome) :
    chatLoopStep msgs "quit" oc
      = { messages := msgs, called := false, exited := true
          errorPrinted := false, scopesLeaked := 0 } ∧
    chatLoopStep msgs "QUIT" oc2
      = { messages := msgs ++ [{ role := "user", content := "QUIT" },
            { role := "assistant",
              content := fullResponseOf (oc2.fragments.map fun r => r.message.content) }],
          called := true, exited := false, errorPrinted := oc2.failed, scopesLeaked := 0 } := by
  constructor
  · exact chatLoopStep_break msgs "quit" oc (by decide)
      (Or.inr (by decide))
  · have h := chatLoopStep_normal msgs "QUIT" oc2 (by decide) (by decide)
    rw [h]
    rw [show trimSpace "QUIT" = "QUIT" from rfl]

end OllamaTerminal
